import Mathlib

/-!
Shallow embedding of the ray-tracer rendering core (Rust sources under
src/: lib.rs, tuples.rs, matrices.rs, rays.rs, shapes.rs, materials.rs,
patterns.rs, lighting.rs, intersections.rs, world.rs) and proofs about it.

Scalars: the Rust code computes in f32.  We embed f32 values as exact
rationals, so +, -, *, / and all comparisons are the idealized (exact)
versions of the float operations.  The primitive operations that have no
exact rational counterpart (sqrt, powf, floor, the float remainder) are
kept abstract as a parameter record, `FloatOps`; every theorem below is
proved for all instantiations of these primitives, and explicit
evaluations instantiate them with `exOps`, whose sqrt is exact on
rational perfect squares (where f32 sqrt is also exact).
-/

/-- Record of the f32 primitives the rational embedding keeps abstract:
square root, `powf`, `floor` and the float remainder `%`. -/
structure FloatOps where
  sqrt : ℚ → ℚ
  powf : ℚ → ℚ → ℚ
  floor : ℚ → ℚ
  fmod : ℚ → ℚ → ℚ

/-- lib.rs: `pub const EPSILON: f32 = 0.00001;` -/
def EPSILON : ℚ := 1 / 100000

/-- lib.rs: `pub const REFLECTION_RECURSION_LIMIT: i32 = 5;` -/
def REFLECTION_RECURSION_LIMIT : Int := 5

/-- f32::abs, written out so it evaluates by kernel reduction. -/
def ratAbs (q : ℚ) : ℚ := if q < 0 then -q else q

theorem ratAbs_eq_abs (q : ℚ) : ratAbs q = |q| := by
  rcases lt_or_ge q 0 with h | h
  · rw [ratAbs, if_pos h, abs_of_neg h]
  · rw [ratAbs, if_neg (not_lt.mpr h), abs_of_nonneg h]

/-- lib.rs: `float_eq(left, right) = (left - right).abs() < EPSILON`. -/
def float_eq (left right : ℚ) : Bool := ratAbs (left - right) < EPSILON

/-- tuples.rs: `Tuple { x, y, z, w }` (the f32 instantiation). -/
structure Tuple where
  x : ℚ
  y : ℚ
  z : ℚ
  w : ℚ
deriving DecidableEq, Repr

namespace Tuple

/-- tuples.rs: `Tuple::new`. -/
def new (x y z w : ℚ) : Tuple := ⟨x, y, z, w⟩

/-- tuples.rs: `Tuple::point(x, y, z)` has `w = 1`. -/
def point (x y z : ℚ) : Tuple := ⟨x, y, z, 1⟩

/-- tuples.rs: `Tuple::vector(x, y, z)` has `w = 0`. -/
def vector (x y z : ℚ) : Tuple := ⟨x, y, z, 0⟩

/-- tuples.rs: `Tuple::color(red, green, blue)` has `w = 0`. -/
def color (red green blue : ℚ) : Tuple := ⟨red, green, blue, 0⟩

/-- tuples.rs: `impl ops::Add for Tuple` (component-wise). -/
instance : Add Tuple :=
  ⟨fun a b => ⟨a.x + b.x, a.y + b.y, a.z + b.z, a.w + b.w⟩⟩

/-- tuples.rs: `impl ops::Sub for Tuple` (component-wise). -/
instance : Sub Tuple :=
  ⟨fun a b => ⟨a.x - b.x, a.y - b.y, a.z - b.z, a.w - b.w⟩⟩

/-- tuples.rs: `impl ops::Neg for Tuple` (component-wise). -/
instance : Neg Tuple :=
  ⟨fun a => ⟨-a.x, -a.y, -a.z, -a.w⟩⟩

/-- tuples.rs: `impl ops::Mul<T> for Tuple` (tuple times scalar). -/
instance : HMul Tuple ℚ Tuple :=
  ⟨fun a s => ⟨a.x * s, a.y * s, a.z * s, a.w * s⟩⟩

/-- tuples.rs: `impl ops::Mul for Tuple` (component-wise product). -/
instance : Mul Tuple :=
  ⟨fun a b => ⟨a.x * b.x, a.y * b.y, a.z * b.z, a.w * b.w⟩⟩

/-- tuples.rs: `impl ops::Div<T> for Tuple` (tuple divided by scalar). -/
instance : HDiv Tuple ℚ Tuple :=
  ⟨fun a s => ⟨a.x / s, a.y / s, a.z / s, a.w / s⟩⟩

/-- tuples.rs: `dot` of two tuples (includes the w component). -/
def dot (a b : Tuple) : ℚ := a.x * b.x + a.y * b.y + a.z * b.z + a.w * b.w

/-- tuples.rs: `magnitude = sqrt(x^2 + y^2 + z^2 + w^2)`. -/
def magnitude (ops : FloatOps) (a : Tuple) : ℚ :=
  ops.sqrt (a.x ^ 2 + a.y ^ 2 + a.z ^ 2 + a.w ^ 2)

/-- tuples.rs: `normalize` divides every component by the magnitude. -/
def normalize (ops : FloatOps) (a : Tuple) : Tuple :=
  let m := a.magnitude ops
  ⟨a.x / m, a.y / m, a.z / m, a.w / m⟩

/-- rays.rs: `reflect(in_v, normal) = in_v - normal * 2.0 * in_v.dot(normal)`
(the method form `tuple.reflect(normal)` used by lighting.rs and
intersections.rs computes the same expression). -/
def reflect (in_v normal : Tuple) : Tuple :=
  in_v - normal * (2 : ℚ) * in_v.dot normal

/-- tuples.rs: `impl PartialEq for Tuple`, tolerance-based equality
with the file-local `EPSILON = 0.00001` (same value as the lib.rs
constant). -/
def float_tuple_eq (a b : Tuple) : Bool :=
  float_eq a.x b.x && float_eq a.y b.y && float_eq a.z b.z && float_eq a.w b.w

end Tuple

/-- matrices.rs: `Matrix2 { rows: [[f32; 2]; 2] }`. -/
structure Matrix2 where
  rows : Fin 2 → Fin 2 → ℚ

/-- matrices.rs: `Matrix2::determinant = ad - bc`. -/
def Matrix2.determinant (m : Matrix2) : ℚ :=
  m.rows 0 0 * m.rows 1 1 - m.rows 0 1 * m.rows 1 0

/-- matrices.rs: `Matrix3 { rows: [[f32; 3]; 3] }`. -/
structure Matrix3 where
  rows : Fin 3 → Fin 3 → ℚ

namespace Matrix3

/-- matrices.rs: `Matrix3::submatrix` deletes one row and one column,
keeping the remaining entries in order. -/
def submatrix (m : Matrix3) (del_row del_col : Fin 3) : Matrix2 :=
  ⟨fun i j => m.rows (del_row.succAbove i) (del_col.succAbove j)⟩

/-- matrices.rs: `Matrix3::minor` is the determinant of the submatrix. -/
def minor (m : Matrix3) (row col : Fin 3) : ℚ :=
  (m.submatrix row col).determinant

/-- matrices.rs: `Matrix3::cofactor` negates the minor when row+col is odd. -/
def cofactor (m : Matrix3) (row col : Fin 3) : ℚ :=
  if (row.val + col.val) % 2 ≠ 0 then -(m.minor row col) else m.minor row col

/-- matrices.rs: `Matrix3::determinant`, cofactor expansion along row 0. -/
def determinant (m : Matrix3) : ℚ :=
  m.rows 0 0 * m.cofactor 0 0 + m.rows 0 1 * m.cofactor 0 1 +
    m.rows 0 2 * m.cofactor 0 2

end Matrix3

/-- matrices.rs: `Matrix4 { rows: [[f32; 4]; 4] }`. -/
structure Matrix4 where
  rows : Fin 4 → Fin 4 → ℚ

namespace Matrix4

/-- matrices.rs: `IDENTITY_MATRIX4`. -/
def identity : Matrix4 := ⟨fun i j => if i.val = j.val then 1 else 0⟩

/-- matrices.rs: `Matrix4::translation(x, y, z)`: identity with the last
column of the first three rows replaced. -/
def translation (x y z : ℚ) : Matrix4 :=
  ⟨fun i j =>
    if i.val = 0 ∧ j.val = 3 then x
    else if i.val = 1 ∧ j.val = 3 then y
    else if i.val = 2 ∧ j.val = 3 then z
    else identity.rows i j⟩

/-- matrices.rs: `Matrix4::scaling(x, y, z)`: identity with the first
three diagonal entries replaced. -/
def scaling (x y z : ℚ) : Matrix4 :=
  ⟨fun i j =>
    if i.val = 0 ∧ j.val = 0 then x
    else if i.val = 1 ∧ j.val = 1 then y
    else if i.val = 2 ∧ j.val = 2 then z
    else identity.rows i j⟩

/-- matrices.rs: `Matrix4::transpose`. -/
def transpose (m : Matrix4) : Matrix4 := ⟨fun i j => m.rows j i⟩

/-- matrices.rs: `Matrix4::submatrix` deletes one row and one column,
keeping the remaining entries in order. -/
def submatrix (m : Matrix4) (del_row del_col : Fin 4) : Matrix3 :=
  ⟨fun i j => m.rows (del_row.succAbove i) (del_col.succAbove j)⟩

/-- matrices.rs: `Matrix4::minor`. -/
def minor (m : Matrix4) (row col : Fin 4) : ℚ :=
  (m.submatrix row col).determinant

/-- matrices.rs: `Matrix4::cofactor`. -/
def cofactor (m : Matrix4) (row col : Fin 4) : ℚ :=
  if (row.val + col.val) % 2 ≠ 0 then -(m.minor row col) else m.minor row col

/-- matrices.rs: `Matrix4::determinant`, cofactor expansion along row 0. -/
def determinant (m : Matrix4) : ℚ :=
  m.rows 0 0 * m.cofactor 0 0 + m.rows 0 1 * m.cofactor 0 1 +
    m.rows 0 2 * m.cofactor 0 2 + m.rows 0 3 * m.cofactor 0 3

/-- matrices.rs: `impl ops::Div<f32> for Matrix4` (entry-wise). -/
instance : HDiv Matrix4 ℚ Matrix4 :=
  ⟨fun m s => ⟨fun i j => m.rows i j / s⟩⟩

/-- matrices.rs: `Matrix4::inverse`: transpose of the cofactor matrix,
divided by the determinant. -/
def inverse (m : Matrix4) : Matrix4 :=
  (Matrix4.transpose ⟨fun i j => m.cofactor i j⟩ : Matrix4) / m.determinant

/-- matrices.rs: `impl ops::Mul<Tuple> for Matrix4` (row dot products). -/
instance : HMul Matrix4 Tuple Tuple :=
  ⟨fun m t =>
    ⟨m.rows 0 0 * t.x + m.rows 0 1 * t.y + m.rows 0 2 * t.z + m.rows 0 3 * t.w,
     m.rows 1 0 * t.x + m.rows 1 1 * t.y + m.rows 1 2 * t.z + m.rows 1 3 * t.w,
     m.rows 2 0 * t.x + m.rows 2 1 * t.y + m.rows 2 2 * t.z + m.rows 2 3 * t.w,
     m.rows 3 0 * t.x + m.rows 3 1 * t.y + m.rows 3 2 * t.z + m.rows 3 3 * t.w⟩⟩

instance : DecidableEq Matrix4 := fun a b =>
  decidable_of_iff (a.rows = b.rows) (by cases a; cases b; simp)

end Matrix4

/-- rays.rs: `Ray { origin, direction }`. -/
structure Ray where
  origin : Tuple
  direction : Tuple
deriving DecidableEq, Repr

namespace Ray

/-- rays.rs: `Ray::position(t) = origin + direction * t`. -/
def position (r : Ray) (t : ℚ) : Tuple := r.origin + r.direction * t

/-- rays.rs: `Ray::transform(m)` applies the matrix to both parts. -/
def transform (r : Ray) (m : Matrix4) : Ray := ⟨m * r.origin, m * r.direction⟩

end Ray

/-- patterns.rs: `PatternKind` — Stripe, Gradient, Ring, TestPattern. -/
inductive PatternKind where
  | Stripe (a b : Tuple)
  | Gradient (a b : Tuple)
  | Ring (a b : Tuple)
  | TestPattern
deriving DecidableEq, Repr

/-- patterns.rs: `Pattern { transform, kind }`. -/
structure Pattern where
  transform : Matrix4
  kind : PatternKind
deriving DecidableEq

/-- patterns.rs: `Pattern::color_at(point)`, a pure function of the
variant evaluated at a pattern-space point. -/
def Pattern.color_at (ops : FloatOps) (p : Pattern) (point : Tuple) : Tuple :=
  match p.kind with
  | .Stripe a b => if ops.fmod (ops.floor point.x) 2 = 0 then a else b
  | .Gradient a b => a + (b - a) * (point.x - ops.floor point.x)
  | .Ring a b =>
      if ops.fmod (ops.floor (ops.sqrt (ops.powf point.x 2 + ops.powf point.z 2))) 2 = 0
      then a else b
  | .TestPattern => Tuple.color point.x point.y point.z

/-- materials.rs: `Material` with color, ambient, diffuse, specular,
shininess, optional pattern, reflective. -/
structure Material where
  color : Tuple
  ambient : ℚ
  diffuse : ℚ
  specular : ℚ
  shininess : ℚ
  pattern : Option Pattern
  reflective : ℚ
deriving DecidableEq

/-- materials.rs: `Material::default()`: white, 0.1, 0.9, 0.9, 200,
no pattern, reflective 0. -/
def Material.default : Material :=
  ⟨Tuple.color 1 1 1, 1/10, 9/10, 9/10, 200, none, 0⟩

/-- shapes.rs: `ShapeKind` — Sphere or Plane. -/
inductive ShapeKind where
  | Sphere
  | Plane
deriving DecidableEq, Repr

/-- shapes.rs: `Shape { transform, material, shape_kind }`. -/
structure Shape where
  transform : Matrix4
  material : Material
  shape_kind : ShapeKind
deriving DecidableEq

/-- patterns.rs: `pattern_at_shape(pattern, object, point)`: world point →
object space → pattern space → variant evaluation. -/
def pattern_at_shape (ops : FloatOps) (pattern : Pattern) (object : Shape)
    (point : Tuple) : Tuple :=
  let object_space := object.transform.inverse * point
  let pattern_space := pattern.transform.inverse * object_space
  pattern.color_at ops pattern_space

namespace Shape

/-- shapes.rs: `Shape::local_normal_at`: plane normal is constant (0,1,0);
sphere normal is `point - point(0,0,0)`. -/
def local_normal_at (s : Shape) (point : Tuple) : Tuple :=
  match s.shape_kind with
  | .Plane => Tuple.vector 0 1 0
  | .Sphere => point - Tuple.point 0 0 0

/-- shapes.rs: `Shape::normal_at`: world point → object space, local
normal, inverse-transpose back to world space, w zeroed, normalized. -/
def normal_at (ops : FloatOps) (s : Shape) (point : Tuple) : Tuple :=
  let local_point := s.transform.inverse * point
  let local_normal := s.local_normal_at local_point
  let world_normal := s.transform.inverse.transpose * local_normal
  let world_normal : Tuple := { world_normal with w := 0 }
  world_normal.normalize ops

end Shape

/-- intersections.rs: `Intersection` with `t`, `object`, and the six
derived fields that stay `None` until `prepare_hit` runs. -/
structure Intersection where
  t : ℚ
  object : Shape
  point : Option Tuple
  over_point : Option Tuple
  eyev : Option Tuple
  normalv : Option Tuple
  inside : Option Bool
  reflectv : Option Tuple
deriving DecidableEq

/-- intersections.rs: `Intersection::new(t, object)` leaves every derived
field `None`. -/
def Intersection.new (t : ℚ) (object : Shape) : Intersection :=
  ⟨t, object, none, none, none, none, none, none⟩

namespace Shape

/-- shapes.rs: `Shape::intersections(ts)` wraps each t in an
`Intersection` carrying the shape. -/
def intersections (s : Shape) (ts : List ℚ) : List Intersection :=
  ts.map fun t => Intersection.new t s

/-- shapes.rs: `Shape::local_intersect`: the plane case returns nothing
for a near-horizontal direction, otherwise one hit at
`-origin.y / direction.y`; the sphere case solves the quadratic and
returns the two roots in ascending order. -/
def local_intersect (ops : FloatOps) (s : Shape) (ray : Ray) :
    List Intersection :=
  match s.shape_kind with
  | .Plane =>
      if float_eq ray.direction.y 0 then []
      else [Intersection.new (-ray.origin.y / ray.direction.y) s]
  | .Sphere =>
      let sphere_to_ray := ray.origin - Tuple.point 0 0 0
      let a := ray.direction.dot ray.direction
      let b := 2 * ray.direction.dot sphere_to_ray
      let c := sphere_to_ray.dot sphere_to_ray - 1
      let discriminant := b ^ 2 - 4 * a * c
      if discriminant < 0 then []
      else
        let t1 := (-b - ops.sqrt discriminant) / (2 * a)
        let t2 := (-b + ops.sqrt discriminant) / (2 * a)
        let i1 := Intersection.new t1 s
        let i2 := Intersection.new t2 s
        if t2 < t1 then [i2, i1] else [i1, i2]

/-- shapes.rs: `Shape::intersect` transforms the ray to object space by
the inverse transform, then runs the local test. -/
def intersect (ops : FloatOps) (s : Shape) (ray : Ray) : List Intersection :=
  let local_ray := ray.transform s.transform.inverse
  s.local_intersect ops local_ray

end Shape

/-- One step of the Rust `Iterator::min` fold over `Intersection`s
(the `Ord` instance orders by `t`; ties keep the earlier element). -/
def minStep (acc : Option Intersection) (i : Intersection) :
    Option Intersection :=
  match acc with
  | none => some i
  | some a => if i.t < a.t then some i else some a

/-- intersections.rs: `find_hit` filters `t > 0.01` and takes the
minimum by `t` (first of equal minima, per `Iterator::min`). -/
def find_hit (intersections : List Intersection) : Option Intersection :=
  (intersections.filter fun inter => decide ((1 : ℚ)/100 < inter.t)).foldl
    minStep none

/-- lighting.rs: `PointLight { position, intensity }`. -/
structure PointLight where
  position : Tuple
  intensity : Tuple
deriving DecidableEq

/-- lighting.rs: the Phong `lighting` function.  In-shadow returns the
ambient term alone; otherwise ambient + diffuse + specular, with diffuse
and specular black when the light is behind the surface. -/
def lighting (ops : FloatOps) (material : Material) (object : Shape)
    (light : PointLight) (point eyev normalv : Tuple) (in_shadow : Bool) :
    Tuple :=
  let black := Tuple.color 0 0 0
  let color :=
    (material.pattern.map fun pattern =>
      pattern_at_shape ops pattern object point).getD material.color
  let effective_color := color * light.intensity
  let lightv := (light.position - point).normalize ops
  let ambient := effective_color * material.ambient
  let light_dot_normal := lightv.dot normalv
  let ds : Tuple × Tuple :=
    if light_dot_normal < 0 then (black, black)
    else
      let diffuse := effective_color * material.diffuse * light_dot_normal
      let reflectv := -(lightv.reflect normalv)
      let reflect_dot_eye := ops.powf (reflectv.dot eyev) material.shininess
      let specular :=
        if reflect_dot_eye ≤ 0 then black
        else light.intensity * material.specular * reflect_dot_eye
      (diffuse, specular)
  if in_shadow then ambient else ambient + ds.1 + ds.2

/-- world.rs: `World { light_source, objects }`. -/
structure World where
  light_source : Option PointLight
  objects : List Shape
deriving DecidableEq

/-- world.rs: `World::new()` has no light and no objects. -/
def World.new : World := ⟨none, []⟩

/-- world.rs: `World::intersect_world` flat-maps `shape.intersect` over
the objects and sorts by `t` (the `Ord` used by `sort_unstable`). -/
def World.intersect_world (ops : FloatOps) (w : World) (ray : Ray) :
    List Intersection :=
  ((w.objects.flatMap fun object => object.intersect ops ray).mergeSort
    fun a b => decide (a.t ≤ b.t))

/-- intersections.rs: `Intersection::prepare_hit`: evaluate the ray at
`t`, nudge the position along the (unflipped) normal by 0.0001, store
eyev/point, flip the normal and set `inside` when it faces away from the
eye, then derive `over_point` and `reflectv` from the stored fields. -/
def Intersection.prepare_hit (ops : FloatOps) (i : Intersection) (ray : Ray) :
    Intersection :=
  let position0 := ray.position i.t
  let eyev := -ray.direction
  let normalv0 := Shape.normal_at ops i.object position0
  let position := position0 + normalv0 * ((1 : ℚ)/10000)
  let inside : Bool := decide (normalv0.dot eyev < 0)
  let normalv := if normalv0.dot eyev < 0 then -normalv0 else normalv0
  { i with
      eyev := some eyev
      point := some position
      inside := some inside
      normalv := some normalv
      over_point := some (position + normalv * EPSILON)
      reflectv := some (ray.direction.reflect normalv) }

/-- world.rs: `World::is_shadowed(point)`: with no light, false;
otherwise cast a ray toward the light and compare the nearest hit's `t`
with the distance to the light. -/
def World.is_shadowed (ops : FloatOps) (w : World) (point : Tuple) : Bool :=
  match w.light_source with
  | some light =>
      let v := light.position - point
      let distance := v.magnitude ops
      let ray : Ray := ⟨point, v.normalize ops⟩
      match find_hit (w.intersect_world ops ray) with
      | some hit => decide (hit.t < distance)
      | none => false
  | none => false

mutual

/-- world.rs: `World::color_at(ray, remaining)`: shade the visible hit,
black when nothing is hit.  `none` models a Rust panic (a failed
`unwrap`) somewhere in the call chain. -/
def World.color_at (ops : FloatOps) (w : World) (ray : Ray) (remaining : Int) :
    Option Tuple :=
  match find_hit (w.intersect_world ops ray) with
  | none => some (Tuple.color 0 0 0)
  | some hit => (hit.prepare_hit ops ray).shade_hit ops w remaining
termination_by (remaining.toNat, 2)
decreasing_by apply Prod.Lex.right; omega

/-- intersections.rs: `Intersection::shade_hit`: surface lighting at the
over-point (with the shadow test) plus the reflected contribution.  Each
`Option.bind` models one `unwrap` of a derived field (or of the world's
light source), in the order the Rust code evaluates them. -/
def Intersection.shade_hit (ops : FloatOps) (i : Intersection) (w : World)
    (remaining : Int) : Option Tuple :=
  i.over_point.bind fun op =>
    w.light_source.bind fun light =>
      i.eyev.bind fun eyev =>
        i.normalv.bind fun normalv =>
          (i.reflected_color ops w remaining).map fun reflected =>
            lighting ops i.object.material i.object light op eyev normalv
              (w.is_shadowed ops op) + reflected
termination_by (remaining.toNat, 1)
decreasing_by apply Prod.Lex.right; omega

/-- intersections.rs: `Intersection::reflected_color`: black when the
bounce budget is exhausted or the material is not reflective; otherwise
recurse on the ray from the stored `point` along `reflectv`, scaling by
the reflectivity. -/
def Intersection.reflected_color (ops : FloatOps) (i : Intersection)
    (w : World) (remaining : Int) : Option Tuple :=
  if h : remaining ≤ 0 ∨ i.object.material.reflective = 0 then
    some (Tuple.color 0 0 0)
  else
    i.point.bind fun p =>
      i.reflectv.bind fun rv =>
        (World.color_at ops w ⟨p, rv⟩ (remaining - 1)).map fun c =>
          c * i.object.material.reflective
termination_by (remaining.toNat, 0)
decreasing_by apply Prod.Lex.left; omega

end

/-- Bisection step for an integer square root: `lo^2 ≤ n < hi^2` is
maintained, the fuel bounds the number of halvings (structural, so it
evaluates by kernel reduction). -/
def sqrtBisect : Nat → Nat → Nat → Nat → Nat
  | 0, _, lo, _ => lo
  | fuel + 1, n, lo, hi =>
    if hi ≤ lo + 1 then lo
    else
      let mid := (lo + hi) / 2
      if mid * mid ≤ n then sqrtBisect fuel n mid hi
      else sqrtBisect fuel n lo mid

/-- Integer square root by bisection; 64 halvings cover every `n < 2^64`. -/
def natSqrt64 (n : Nat) : Nat := sqrtBisect 64 n 0 (n + 1)

/-- A square root on ℚ that is exact on perfect squares of rationals
(with numerator and denominator below `2^64`) — where f32 `sqrt` is also
exact — and 0 elsewhere.  Used only to instantiate `FloatOps` for
concrete evaluations, which are arranged to take square roots of perfect
squares only. -/
def ratSqrt (q : ℚ) : ℚ :=
  let ns := natSqrt64 q.num.toNat
  let ds := natSqrt64 q.den
  if 0 ≤ q.num ∧ (ns * ns : Int) = q.num ∧ ds * ds = q.den
  then (ns : ℚ) / (ds : ℚ) else 0

/-- Truncation toward zero, the rounding used by the float remainder. -/
def ratTrunc (q : ℚ) : ℚ := ((Int.tdiv q.num q.den : Int) : ℚ)

/-- A concrete, fully computable instantiation of the abstract f32
primitives, used for the explicit scenes below.  `powf` is arbitrary
(no concrete evaluation below reaches it). -/
def exOps : FloatOps :=
  ⟨ratSqrt, fun _ _ => 0, fun q => ((Int.ediv q.num q.den : Int) : ℚ),
   fun a b => a - b * ratTrunc (a / b)⟩

/-- A unit sphere at the origin with the default material
(shapes.rs `Sphere::new()` with the identity placement transform). -/
def unitSphere : Shape := ⟨Matrix4.identity, Material.default, .Sphere⟩

/-- The x/z plane at y = 0, fully reflective, otherwise default material. -/
def lowerPlane : Shape :=
  ⟨Matrix4.identity, { Material.default with reflective := 1 }, .Plane⟩

/-- A second x/z plane, translated up to y = 0.01011, default material. -/
def upperPlane : Shape :=
  ⟨Matrix4.translation 0 (1011/100000) 0, Material.default, .Plane⟩

/-- A white point light at (0, 2, 0). -/
def exLight : PointLight := ⟨Tuple.point 0 2 0, Tuple.color 1 1 1⟩

/-- Example world: the two planes and the light. -/
def exWorld : World := ⟨some exLight, [lowerPlane, upperPlane]⟩

/-- The same world with the objects inserted in the opposite order. -/
def exWorldRev : World := ⟨some exLight, [upperPlane, lowerPlane]⟩

/-- A ray from (0, 1, 0) straight down; it meets `lowerPlane` at t = 1. -/
def exRay : Ray := ⟨Tuple.point 0 1 0, Tuple.vector 0 (-1) 0⟩

/-- The prepared hit of `exRay` on `lowerPlane` at t = 1. -/
def exHit : Intersection :=
  (Intersection.new 1 lowerPlane).prepare_hit exOps exRay

/-- Spec §4.8 verbatim (for comparison with the code's
`Intersection.reflected_color`): "cast a ray from `over_point` along
`reflectv`, recursively call `color_at` with `remaining_bounces - 1`,
scale result by `material.reflective`" — origin `over_point`, where the
code uses the (already nudged) `point` field. -/
def Intersection.reflected_color_spec (ops : FloatOps) (i : Intersection)
    (w : World) (remaining : Int) : Option Tuple :=
  if remaining ≤ 0 ∨ i.object.material.reflective = 0 then
    some (Tuple.color 0 0 0)
  else
    i.over_point.bind fun op =>
      i.reflectv.bind fun rv =>
        (World.color_at ops w ⟨op, rv⟩ (remaining - 1)).map fun c =>
          c * i.object.material.reflective

/-- A hit is prepared when all six derived fields hold a value. -/
def Prepared (i : Intersection) : Prop :=
  i.point.isSome ∧ i.over_point.isSome ∧ i.eyev.isSome ∧
    i.normalv.isSome ∧ i.inside.isSome ∧ i.reflectv.isSome

instance (i : Intersection) : Decidable (Prepared i) := by
  unfold Prepared; infer_instance

/-- Claim C5: with `in_shadow = true`, `lighting` returns only the
ambient term — the base color (pattern-evaluated if the material has a
pattern, else the material color) multiplied component-wise by the light
intensity and scaled by the material's ambient — with no diffuse or
specular contribution. -/
theorem C5_lighting_in_shadow_ambient_only (ops : FloatOps)
    (material : Material) (object : Shape) (light : PointLight)
    (point eyev normalv : Tuple) :
    lighting ops material object light point eyev normalv true =
      ((material.pattern.map fun pattern =>
          pattern_at_shape ops pattern object point).getD material.color) *
        light.intensity * material.ambient := rfl

/-- Claim C10: `World::is_shadowed` returns `false` whenever the world
has no light source. -/
theorem C10_no_light_never_shadowed (ops : FloatOps) (w : World)
    (point : Tuple) (h : w.light_source = none) :
    w.is_shadowed ops point = false := by
  unfold World.is_shadowed
  rw [h]

/-- Witness for C10 at a concrete world (`World::new()`) and point. -/
theorem C10_witness :
    World.new.light_source = none ∧
    World.is_shadowed exOps World.new (Tuple.point 1 2 3) = false :=
  ⟨rfl, C10_no_light_never_shadowed exOps World.new (Tuple.point 1 2 3) rfl⟩

attribute [local semireducible] Rat.add Rat.mul Rat.sub Rat.inv
attribute [local semireducible] List.merge List.mergeSort
attribute [local semireducible] World.color_at Intersection.shade_hit
attribute [local semireducible] Intersection.reflected_color

/-- Claim C4 (amended): after `prepare_hit(ray)` the derived `point`
field holds `ray.position(t)` offset along the surface normal at that
position by 0.0001 — not `ray.position(t)` itself (see
`C4_counterexample`). -/
theorem C4_prepare_hit_point_offset (ops : FloatOps) (i : Intersection)
    (ray : Ray) :
    (i.prepare_hit ops ray).point =
      some (ray.position i.t +
        Shape.normal_at ops i.object (ray.position i.t) * ((1 : ℚ)/10000)) :=
  rfl

/-- Counterexample to claim C4 as stated: for the hit of `exRay` on
`lowerPlane` at t = 1, the stored `point` is (0, 0.0001, 0), which
differs from `ray.position(1) = (0, 0, 0)` — also under the code's own
tolerance-based tuple equality. -/
theorem C4_counterexample :
    ((Intersection.new 1 lowerPlane).prepare_hit exOps exRay).point ≠
        some (exRay.position 1) ∧
      (((Intersection.new 1 lowerPlane).prepare_hit exOps exRay).point.map
        fun p => p.float_tuple_eq (exRay.position 1)) = some false := by
  decide

/-- Claim C7: a plane's local intersection test returns no intersection
when `|ray.direction.y| < EPSILON` (so the division is never executed
with a near-zero divisor), and otherwise exactly one intersection at
`t = -ray.origin.y / ray.direction.y`, attached to the plane. -/
theorem C7_plane_local_intersect_guard (ops : FloatOps) (s : Shape)
    (ray : Ray) (hk : s.shape_kind = ShapeKind.Plane) :
    (|ray.direction.y| < EPSILON → s.local_intersect ops ray = []) ∧
      (¬|ray.direction.y| < EPSILON →
        s.local_intersect ops ray =
          [Intersection.new (-ray.origin.y / ray.direction.y) s]) := by
  have habs : ratAbs (ray.direction.y - 0) = |ray.direction.y| := by
    rw [sub_zero, ratAbs_eq_abs]
  constructor <;> intro h <;>
    simp [Shape.local_intersect, hk, float_eq, ratAbs_eq_abs, sub_zero, h]

/-- Witness for C7: a ray with direction.y = 0 misses the plane; the
downward ray `exRay` hits it once at t = 1. -/
theorem C7_witness :
    Shape.local_intersect exOps lowerPlane
        ⟨Tuple.point 0 10 0, Tuple.vector 0 0 1⟩ = [] ∧
      Shape.local_intersect exOps lowerPlane exRay =
        [Intersection.new (-exRay.origin.y / exRay.direction.y) lowerPlane] :=
  ⟨(C7_plane_local_intersect_guard exOps lowerPlane
      ⟨Tuple.point 0 10 0, Tuple.vector 0 0 1⟩ rfl).1
      (by norm_num [Tuple.vector, EPSILON]),
   (C7_plane_local_intersect_guard exOps lowerPlane exRay rfl).2
      (by norm_num [exRay, Tuple.vector, EPSILON])⟩

/-- Folding `minStep` from an occupied accumulator yields an element that
is among the accumulator and the list, no bigger than the accumulator,
and a lower bound in `t` of the whole list. -/
theorem foldl_minStep_some (l : List Intersection) :
    ∀ a : Intersection, ∃ m, l.foldl minStep (some a) = some m ∧
      (m = a ∨ m ∈ l) ∧ m.t ≤ a.t ∧ ∀ j ∈ l, m.t ≤ j.t := by
  induction l with
  | nil => exact fun a => ⟨a, rfl, Or.inl rfl, le_refl _, by simp⟩
  | cons b l ih =>
    intro a
    by_cases hb : b.t < a.t
    · obtain ⟨m, h1, h2, h3, h4⟩ := ih b
      refine ⟨m, ?_, ?_, ?_, ?_⟩
      · simpa [minStep, hb] using h1
      · rcases h2 with h2 | h2
        · exact Or.inr (h2 ▸ List.mem_cons_self b l)
        · exact Or.inr (List.mem_cons_of_mem b h2)
      · exact le_trans h3 (le_of_lt hb)
      · intro j hj
        rcases List.mem_cons.mp hj with hj | hj
        · exact hj ▸ h3
        · exact h4 j hj
    · obtain ⟨m, h1, h2, h3, h4⟩ := ih a
      refine ⟨m, ?_, ?_, h3, ?_⟩
      · simpa [minStep, hb] using h1
      · rcases h2 with h2 | h2
        · exact Or.inl h2
        · exact Or.inr (List.mem_cons_of_mem b h2)
      · intro j hj
        rcases List.mem_cons.mp hj with hj | hj
        · exact hj ▸ le_trans h3 (not_lt.mp hb)
        · exact h4 j hj

/-- Claim C2: `find_hit` returns `none` exactly when no intersection has
`t` above the 0.01 hit threshold; otherwise it returns an element of the
list whose `t` exceeds the threshold and is minimal among all such
elements. -/
theorem C2_find_hit_min_positive (l : List Intersection) :
    (find_hit l = none ↔ ∀ i ∈ l, ¬((1 : ℚ)/100 < i.t)) ∧
      ∀ i, find_hit l = some i →
        i ∈ l ∧ (1 : ℚ)/100 < i.t ∧
          ∀ j ∈ l, (1 : ℚ)/100 < j.t → i.t ≤ j.t := by
  cases hf : l.filter (fun inter => decide ((1 : ℚ)/100 < inter.t)) with
  | nil =>
    have hnone : find_hit l = none := by
      rw [find_hit, hf]; rfl
    refine ⟨⟨fun _ i hi => ?_, fun _ => hnone⟩, fun i hi => ?_⟩
    · have := List.filter_eq_nil_iff.mp hf i hi
      simpa using this
    · rw [hnone] at hi; cases hi
  | cons a rest =>
    obtain ⟨m, h1, h2, h3, h4⟩ := foldl_minStep_some rest a
    have hsome : find_hit l = some m := by
      rw [find_hit, hf, List.foldl_cons]
      simpa [minStep] using h1
    have hmem : m ∈ a :: rest := by
      rcases h2 with h2 | h2
      · exact h2 ▸ List.mem_cons_self a rest
      · exact List.mem_cons_of_mem a h2
    have hmf : m ∈ l.filter (fun inter => decide ((1 : ℚ)/100 < inter.t)) :=
      hf ▸ hmem
    have hml := List.mem_filter.mp hmf
    constructor
    · constructor
      · intro h; rw [hsome] at h; cases h
      · intro hall
        exact absurd (by simpa using hml.2) (hall m hml.1)
    · intro i hi
      rw [hsome] at hi
      injection hi with hi
      subst hi
      refine ⟨hml.1, by simpa using hml.2, ?_⟩
      intro j hj hjt
      have hjf : j ∈ l.filter (fun inter => decide ((1 : ℚ)/100 < inter.t)) :=
        List.mem_filter.mpr ⟨hj, by simpa using hjt⟩
      rw [hf] at hjf
      rcases List.mem_cons.mp hjf with hjf | hjf
      · exact hjf ▸ h3
      · exact h4 j hjf

/-- Witness for C2 at the claim's own examples: for ts = [5, 7, -3, 2]
on a unit sphere, the hit is the element with t = 2; for ts = [-2, -1]
there is no hit. -/
theorem C2_witness :
    Intersection.new 2 unitSphere ∈ unitSphere.intersections [5, 7, -3, 2] ∧
      (1 : ℚ)/100 < (Intersection.new 2 unitSphere).t ∧
      (∀ j ∈ unitSphere.intersections [5, 7, -3, 2],
        (1 : ℚ)/100 < j.t → (Intersection.new 2 unitSphere).t ≤ j.t) ∧
      find_hit (unitSphere.intersections [-2, -1]) = none := by
  have h2 := (C2_find_hit_min_positive (unitSphere.intersections [5, 7, -3, 2])).2
    (Intersection.new 2 unitSphere) (by decide)
  refine ⟨h2.1, h2.2.1, h2.2.2, ?_⟩
  exact (C2_find_hit_min_positive (unitSphere.intersections [-2, -1])).1.mpr
    (by decide)

/-- Claim C1: the reflection recursion is bounded — `reflected_color`
returns black whenever the remaining bounce counter is ≤ 0, each
recursive call goes through `color_at` at `remaining - 1`, and the
initial budget constant `REFLECTION_RECURSION_LIMIT` is 5.  (That the
mutual definitions `World.color_at` / `Intersection.shade_hit` /
`Intersection.reflected_color` are accepted as total functions, with
`remaining.toNat` as the decreasing measure, is itself the termination
argument: recursion depth is bounded by the initial budget in every
scene, including mutually reflective ones.) -/
theorem C1_reflection_recursion_bounded :
    REFLECTION_RECURSION_LIMIT = 5 ∧
      (∀ (ops : FloatOps) (i : Intersection) (w : World) (n : Int), n ≤ 0 →
        i.reflected_color ops w n = some (Tuple.color 0 0 0)) ∧
      (∀ (ops : FloatOps) (i : Intersection) (w : World) (n : Int), 0 < n →
        i.object.material.reflective ≠ 0 →
        i.reflected_color ops w n =
          i.point.bind fun p =>
            i.reflectv.bind fun rv =>
              (World.color_at ops w ⟨p, rv⟩ (n - 1)).map fun c : Tuple =>
                c * i.object.material.reflective) := by
  refine ⟨rfl, ?_, ?_⟩
  · intro ops i w n hn
    unfold Intersection.reflected_color
    rw [dif_pos (Or.inl hn)]
  · intro ops i w n hn hrefl
    unfold Intersection.reflected_color
    rw [dif_neg]
    push_neg
    exact ⟨by omega, hrefl⟩

/-- Witness for C1: at the concrete scene, the bounce budget 0 yields
black, and a positive budget unfolds into a `color_at` call at
budget - 1. -/
theorem C1_witness :
    REFLECTION_RECURSION_LIMIT = 5 ∧
      Intersection.reflected_color exOps exHit exWorld 0 =
        some (Tuple.color 0 0 0) ∧
      Intersection.reflected_color exOps exHit exWorld 5 =
        (exHit.point.bind fun p =>
          exHit.reflectv.bind fun rv =>
            (World.color_at exOps exWorld ⟨p, rv⟩ (5 - 1)).map fun c : Tuple =>
              c * exHit.object.material.reflective) :=
  ⟨C1_reflection_recursion_bounded.1,
   C1_reflection_recursion_bounded.2.1 exOps exHit exWorld 0 (by decide),
   C1_reflection_recursion_bounded.2.2 exOps exHit exWorld 5 (by decide)
     (by decide)⟩

/-- Claim C3 (amended): `reflected_color(world, remaining)` returns
black when `remaining ≤ 0` or the material's reflectivity is 0;
otherwise it constructs a ray whose origin is the hit's stored `point`
field (which `prepare_hit` has already offset from the geometric
intersection point along the surface normal by 0.0001) — not
`over_point` (see `C3_counterexample`) — with direction `reflectv`,
calls `color_at` on it with `remaining - 1`, and returns that color
scaled by `material.reflective`. -/
theorem C3_reflected_color_uses_point (ops : FloatOps) (i : Intersection)
    (w : World) (n : Int) :
    (n ≤ 0 ∨ i.object.material.reflective = 0 →
      i.reflected_color ops w n = some (Tuple.color 0 0 0)) ∧
      (¬(n ≤ 0 ∨ i.object.material.reflective = 0) →
        i.reflected_color ops w n =
          i.point.bind fun p =>
            i.reflectv.bind fun rv =>
              (World.color_at ops w ⟨p, rv⟩ (n - 1)).map fun c : Tuple =>
                c * i.object.material.reflective) := by
  constructor
  · intro h
    unfold Intersection.reflected_color
    rw [dif_pos h]
  · intro h
    unfold Intersection.reflected_color
    rw [dif_neg h]

set_option maxRecDepth 10000 in
/-- Counterexample to claim C3 as stated: at the prepared hit `exHit` of
`exRay` on the fully reflective `lowerPlane` in `exWorld`, the code
(reflect-ray origin = `point`) yields the upper plane's ambient color
(0.1, 0.1, 0.1), while the spec's construction (reflect-ray origin =
`over_point`, `Intersection.reflected_color_spec`) yields black: the
reflected ray from `over_point` reaches the upper plane at exactly
t = 0.01, which the hit threshold rejects. -/
theorem C3_counterexample :
    Intersection.reflected_color exOps exHit exWorld 5 =
        some (Tuple.color (1/10) (1/10) (1/10)) ∧
      Intersection.reflected_color_spec exOps exHit exWorld 5 =
        some (Tuple.color 0 0 0) ∧
      Intersection.reflected_color exOps exHit exWorld 5 ≠
        Intersection.reflected_color_spec exOps exHit exWorld 5 := by
  refine ⟨by decide, by decide, ?_⟩
  decide

/-- Witness for C3 (amended) at the concrete scene: both branches of the
characterization, at bounce budgets 0 and 5. -/
theorem C3_witness :
    Intersection.reflected_color exOps exHit exWorld 0 =
        some (Tuple.color 0 0 0) ∧
      Intersection.reflected_color exOps exHit exWorld 5 =
        (exHit.point.bind fun p =>
          exHit.reflectv.bind fun rv =>
            (World.color_at exOps exWorld ⟨p, rv⟩ (5 - 1)).map fun c : Tuple =>
              c * exHit.object.material.reflective) :=
  ⟨(C3_reflected_color_uses_point exOps exHit exWorld 0).1 (by decide),
   (C3_reflected_color_uses_point exOps exHit exWorld 5).2 (by decide)⟩

/-- Claim C6: `intersect_world` returns exactly the intersections
produced by `shape.intersect` over all objects — a permutation of their
concatenation, the same multiset for any insertion order of the objects
— arranged in ascending order of `t`. -/
theorem C6_intersect_world_sorted_union (ops : FloatOps) (w : World)
    (ray : Ray) :
    (w.intersect_world ops ray).Perm
        (w.objects.flatMap fun object => object.intersect ops ray) ∧
      (w.intersect_world ops ray).Pairwise (fun a b => a.t ≤ b.t) ∧
      ∀ w' : World, w'.objects.Perm w.objects →
        (w'.intersect_world ops ray).Perm (w.intersect_world ops ray) := by
  refine ⟨List.mergeSort_perm _ _, ?_, ?_⟩
  · have h := @List.sorted_mergeSort Intersection
      (fun a b : Intersection => decide (a.t ≤ b.t))
      (fun a b c h1 h2 => by
        simp only [decide_eq_true_eq] at h1 h2 ⊢
        exact le_trans h1 h2)
      (fun a b => by
        rcases le_total a.t b.t with h | h <;> simp [h])
      (w.objects.flatMap fun object => object.intersect ops ray)
    exact h.imp fun hab => of_decide_eq_true hab
  · intro w' hperm
    exact (List.mergeSort_perm _ _).trans
      ((hperm.flatMap_right _).trans (List.mergeSort_perm _ _).symm)

/-- Witness for C6: the two-plane world with its objects inserted in the
opposite order produces a permutation of the same intersections. -/
theorem C6_witness :
    (exWorldRev.intersect_world exOps exRay).Perm
      (exWorld.intersect_world exOps exRay) :=
  (C6_intersect_world_sorted_union exOps exWorld exRay).2.2 exWorldRev
    (List.Perm.swap lowerPlane upperPlane [])

/-- `prepare_hit` populates all six derived fields. -/
theorem prepared_prepare_hit (ops : FloatOps) (i : Intersection) (ray : Ray) :
    Prepared (i.prepare_hit ops ray) :=
  ⟨rfl, rfl, rfl, rfl, rfl, rfl⟩

/-- Given a light source, the whole shading pipeline is panic-free: at
any prepared hit, `reflected_color` and `shade_hit` produce a value, and
`color_at` produces a value for every ray.  Strong induction on the
bounce budget. -/
theorem pipeline_isSome (k : Nat) :
    ∀ n : Int, n.toNat ≤ k → ∀ (ops : FloatOps) (w : World),
      w.light_source.isSome →
      (∀ i : Intersection, Prepared i →
        (i.reflected_color ops w n).isSome ∧ (i.shade_hit ops w n).isSome) ∧
      ∀ ray : Ray, (World.color_at ops w ray n).isSome := by
  induction k using Nat.strong_induction_on with
  | _ k ih =>
    intro n hn ops w hlight
    have hrefl : ∀ i : Intersection, Prepared i →
        (i.reflected_color ops w n).isSome := by
      intro i hp
      unfold Intersection.reflected_color
      by_cases hc : n ≤ 0 ∨ i.object.material.reflective = 0
      · rw [dif_pos hc]; rfl
      · rw [dif_neg hc]
        push_neg at hc
        obtain ⟨p, hpoint⟩ := Option.isSome_iff_exists.mp hp.1
        obtain ⟨rv, hrefv⟩ := Option.isSome_iff_exists.mp hp.2.2.2.2.2
        rw [hpoint, hrefv]
        have hk : (n - 1).toNat < k := by omega
        obtain ⟨c, hcall⟩ := Option.isSome_iff_exists.mp
          ((ih _ hk (n - 1) le_rfl ops w hlight).2 ⟨p, rv⟩)
        simp [hcall]
    have hshade : ∀ i : Intersection, Prepared i →
        (i.shade_hit ops w n).isSome := by
      intro i hp
      unfold Intersection.shade_hit
      obtain ⟨op, hop⟩ := Option.isSome_iff_exists.mp hp.2.1
      obtain ⟨light, hli⟩ := Option.isSome_iff_exists.mp hlight
      obtain ⟨e, he⟩ := Option.isSome_iff_exists.mp hp.2.2.1
      obtain ⟨nv, hnv⟩ := Option.isSome_iff_exists.mp hp.2.2.2.1
      obtain ⟨r, hr⟩ := Option.isSome_iff_exists.mp (hrefl i hp)
      rw [hop, hli, he, hnv]
      simp [hr]
    refine ⟨fun i hp => ⟨hrefl i hp, hshade i hp⟩, ?_⟩
    intro ray
    unfold World.color_at
    split
    · rfl
    · exact hshade _ (prepared_prepare_hit ops _ ray)

/-- Claim C9: `prepare_hit` leaves all six derived optional fields
holding a value (for any intersection, in particular one whose shape
transform is invertible), and consequently the unwraps of these fields
in `shade_hit` and `reflected_color` cannot panic on a prepared hit —
given the world has a light source, both functions produce a value. -/
theorem C9_prepare_hit_fields_present :
    (∀ (ops : FloatOps) (i : Intersection) (ray : Ray),
      i.object.transform.determinant ≠ 0 →
        Prepared (i.prepare_hit ops ray)) ∧
      ∀ (ops : FloatOps) (w : World) (i : Intersection) (n : Int),
        Prepared i → w.light_source.isSome →
        (i.shade_hit ops w n).isSome ∧ (i.reflected_color ops w n).isSome :=
  ⟨fun ops i ray _ => prepared_prepare_hit ops i ray,
   fun ops w i n hp hl =>
     ⟨((pipeline_isSome n.toNat n le_rfl ops w hl).1 i hp).2,
      ((pipeline_isSome n.toNat n le_rfl ops w hl).1 i hp).1⟩⟩

/-- Witness for C9 at the concrete scene: the lower plane's transform is
invertible, its prepared hit has every derived field set, and shading it
in `exWorld` produces values. -/
theorem C9_witness :
    lowerPlane.transform.determinant ≠ 0 ∧
      Prepared ((Intersection.new 1 lowerPlane).prepare_hit exOps exRay) ∧
      (exHit.shade_hit exOps exWorld 5).isSome ∧
      (exHit.reflected_color exOps exWorld 5).isSome := by
  refine ⟨by decide,
    C9_prepare_hit_fields_present.1 exOps (Intersection.new 1 lowerPlane)
      exRay (by decide), ?_, ?_⟩
  · exact (C9_prepare_hit_fields_present.2 exOps exWorld exHit 5 (by decide)
      rfl).1
  · exact (C9_prepare_hit_fields_present.2 exOps exWorld exHit 5 (by decide)
      rfl).2
